import Mathlib

/-!
Verification of the SPV peer session engine (sdk/spvpeer.go).

Shallow embedding conventions:
* 256-bit hashes (common.Uint256) are modelled as natural numbers; the only
  operations the code performs on them are equality tests and conversion to a
  string key, both injective, so a Nat with decidable equality is faithful.
* Go maps with struct value (used as sets) are modelled as Finset.
* Mutexes are dropped: the embedding is a sequential model of each operation,
  which is what the locks ensure in the source.
* Time is modelled in whole seconds as Nat; the source's time.Duration
  constants 15*time.Second and 30*time.Second become 15 and 30.
* The stall handler goroutine's loop body is modelled as a step function on
  its local state (pendingResponses, lastActive); the two select arms become
  stallStep (a stall-control message arrives) and stallTick (the ticker
  fires).  The Bool each returns is whether that iteration calls
  p.Disconnect().
-/

/-- Model of common.Uint256 transaction/block hashes. -/
abbrev Hash := Nat

/-- stallTickInterval from spvpeer.go: 15 * time.Second, in seconds. -/
def stallTickInterval : Nat := 15

/-- stallResponseTimeout from spvpeer.go: 30 * time.Second, in seconds. -/
def stallResponseTimeout : Nat := 30

/-- Model of the downloadTx struct: the queue map is a set of hashes.
The mutex is dropped (sequential model). -/
structure downloadTx where
  queue : Finset Hash
deriving DecidableEq

/-- newDownloadTx from spvpeer.go: empty queue. -/
def newDownloadTx : downloadTx := ⟨∅⟩

/-- downloadTx.queueTx from spvpeer.go: insert the id into the queue map. -/
def downloadTx.queueTx (d : downloadTx) (txId : Hash) : downloadTx :=
  ⟨insert txId d.queue⟩

/-- downloadTx.dequeueTx from spvpeer.go: if the id is absent return false and
leave the map unchanged; otherwise delete it and return true.  The Go method
mutates in place, so the model returns the bool together with the new state. -/
def downloadTx.dequeueTx (d : downloadTx) (txId : Hash) : Bool × downloadTx :=
  if txId ∈ d.queue then (true, ⟨d.queue.erase txId⟩) else (false, d)

/-- Model of the downloadBlock struct: the embedded *msg.MerkleBlock payload is
modelled by the header hash it carries (none when the nil pointer of
newDownloadBlock), txQueue is the set of still-expected transaction ids, and
txs the resolved transactions (by hash). -/
structure downloadBlock where
  merkleBlock : Option Hash
  txQueue : Finset Hash
  txs : List Hash
deriving DecidableEq

/-- newDownloadBlock from spvpeer.go: only the txQueue map is allocated
(empty); the MerkleBlock pointer and txs slice are nil. -/
def newDownloadBlock : downloadBlock := ⟨none, ∅, []⟩

/-- downloadBlock.enqueueTx from spvpeer.go: insert the id into txQueue. -/
def downloadBlock.enqueueTx (d : downloadBlock) (txId : Hash) : downloadBlock :=
  { d with txQueue := insert txId d.txQueue }

/-- downloadBlock.dequeueTx from spvpeer.go: same shape as
downloadTx.dequeueTx, on txQueue. -/
def downloadBlock.dequeueTx (d : downloadBlock) (txId : Hash) : Bool × downloadBlock :=
  if txId ∈ d.txQueue then (true, { d with txQueue := d.txQueue.erase txId })
  else (false, d)

/-- downloadBlock.finished from spvpeer.go: len(d.txQueue) == 0. -/
def downloadBlock.finished (d : downloadBlock) : Bool :=
  d.txQueue.card == 0

/-- Keys of the stall handler's pendingResponses map.  In the source the map
is keyed by strings: the constant command name p2p.CmdInv ("inv") or the
64-hex-character string of a Uint256 hash; the two ranges are disjoint and
hash strings are injective, so an inductive sum is faithful. -/
inductive PendingKey where
  | cmdInv : PendingKey
  | hashKey : Hash → PendingKey
deriving DecidableEq

/-- Stall-control messages distinguished by the stall handler's switch.  For
merkleBlock the payload carries the hash the handler computes from the
RECEIVED header (message.Header.Hash()); for tx the hash of the received
transaction; getData carries the hashes of its inventory list.  other covers
every message kind the switch has no case for (e.g. ping/pong), which still
reach the stall-control channel via HandleMessage and update lastActive. -/
inductive CtrlMsg where
  | getBlocks : CtrlMsg
  | inventory : CtrlMsg
  | getData : List Hash → CtrlMsg
  | merkleBlock : Hash → CtrlMsg
  | tx : Hash → CtrlMsg
  | notFound : CtrlMsg
  | other : CtrlMsg

/-- Local state of the stallHandler goroutine loop. -/
structure StallState where
  pendingResponses : Finset PendingKey
  lastActive : Nat
deriving DecidableEq

/-- One iteration of the stallHandler loop taking the stall-control channel
arm at time now (spvpeer.go lines 208-238): lastActive is set to now before
the switch; getBlocks adds the CmdInv key, inventory removes it, getData adds
one key per inventory hash, merkleBlock/tx remove the key of the received
payload's own hash, notFound calls p.Disconnect().  The returned Bool is
whether this iteration disconnected the peer. -/
def stallStep (s : StallState) (m : CtrlMsg) (now : Nat) : StallState × Bool :=
  let s : StallState := { s with lastActive := now }
  match m with
  | CtrlMsg.getBlocks =>
      ({ s with pendingResponses := insert PendingKey.cmdInv s.pendingResponses }, false)
  | CtrlMsg.inventory =>
      ({ s with pendingResponses := s.pendingResponses.erase PendingKey.cmdInv }, false)
  | CtrlMsg.getData invList =>
      ({ s with pendingResponses :=
          invList.foldl (fun pr h => insert (PendingKey.hashKey h) pr) s.pendingResponses },
        false)
  | CtrlMsg.merkleBlock headerHash =>
      ({ s with pendingResponses := s.pendingResponses.erase (PendingKey.hashKey headerHash) },
        false)
  | CtrlMsg.tx txHash =>
      ({ s with pendingResponses := s.pendingResponses.erase (PendingKey.hashKey txHash) },
        false)
  | CtrlMsg.notFound => (s, true)
  | CtrlMsg.other => (s, false)

/-- One iteration of the stallHandler loop taking the ticker arm at time now
(spvpeer.go lines 240-254): continue if pendingResponses is empty, continue if
now is before lastActive + stallResponseTimeout, otherwise disconnect.  The
state is unchanged; the Bool is whether the iteration disconnected. -/
def stallTick (s : StallState) (now : Nat) : Bool :=
  if s.pendingResponses.card = 0 then false
  else if now < s.lastActive + stallResponseTimeout then false
  else true

/-- Model of the SPVPeer fields the claims touch.  The Go field downloadTx is
renamed downloadTxs to avoid shadowing the type name; blockQueue, the
stall-control channel and the wrapped net.Peer are connection plumbing outside
the claims. -/
structure SPVPeer where
  downloading : downloadBlock
  downloadTxs : downloadTx
  receivedTxs : Nat
  fPositives : Nat
deriving DecidableEq

/-- SPVPeer.ResetDownloading from spvpeer.go: replace downloading with
newDownloadBlock(). -/
def SPVPeer.ResetDownloading (p : SPVPeer) : SPVPeer :=
  { p with downloading := newDownloadBlock }

/-- SPVPeer.GetFalsePositiveRate from spvpeer.go:
float32(p.fPositives) / float32(p.receivedTxs).  Float32 arithmetic is
modelled by exact rationals; when receivedTxs is 0 the IEEE result is the
non-finite NaN or +Inf, i.e. not a meaningful number, modelled as none. -/
def SPVPeer.GetFalsePositiveRate (p : SPVPeer) : Option ℚ :=
  if p.receivedTxs = 0 then none
  else some ((p.fPositives : ℚ) / (p.receivedTxs : ℚ))

/-- SPVPeer.ResetFalsePositives from spvpeer.go: zero both counters. -/
def SPVPeer.ResetFalsePositives (p : SPVPeer) : SPVPeer :=
  { p with fPositives := 0, receivedTxs := 0 }

/-- A sequence of enqueue operations on the download-transaction tracker. -/
def enqueueList (d : downloadTx) (l : List Hash) : downloadTx :=
  l.foldl (fun d h => d.queueTx h) d

/-- A sequence of dequeue operations on the download-transaction tracker,
keeping only the final state. -/
def dequeueTxList (d : downloadTx) (l : List Hash) : downloadTx :=
  l.foldl (fun d h => (d.dequeueTx h).2) d

/-- A sequence of dequeue operations on a download-block tracker, keeping
only the final state. -/
def dequeueBlockList (d : downloadBlock) (l : List Hash) : downloadBlock :=
  l.foldl (fun d h => (d.dequeueTx h).2) d

/-- A sequence of enqueue operations on a download-block tracker. -/
def enqueueBlockList (d : downloadBlock) (l : List Hash) : downloadBlock :=
  l.foldl (fun d h => d.enqueueTx h) d

/-! ### Helper lemmas -/

/-- Membership after the getData fold: the fold inserts one key per inventory
hash. -/
theorem mem_foldl_insert (l : List Hash) (pr : Finset PendingKey) (k : PendingKey) :
    (k ∈ l.foldl (fun pr h => insert (PendingKey.hashKey h) pr) pr) ↔
      k ∈ pr ∨ ∃ x ∈ l, k = PendingKey.hashKey x := by
  induction l generalizing pr with
  | nil => simp
  | cons y t ih =>
      rw [List.foldl_cons, ih]
      simp only [Finset.mem_insert, List.mem_cons]
      constructor
      · rintro (⟨rfl | hk⟩ | ⟨x, hx, rfl⟩)
        · exact Or.inr ⟨y, Or.inl rfl, rfl⟩
        · exact Or.inl hk
        · exact Or.inr ⟨x, Or.inr hx, rfl⟩
      · rintro (hk | ⟨x, hx | hx, rfl⟩)
        · exact Or.inl (Or.inr hk)
        · exact Or.inl (Or.inl (by rw [hx]))
        · exact Or.inr ⟨x, hx, rfl⟩

/-- The state after a downloadTx dequeue always has the id erased (erasing an
absent id is the identity). -/
theorem downloadTx.dequeueTx_snd_queue (d : downloadTx) (h : Hash) :
    ((d.dequeueTx h).2).queue = d.queue.erase h := by
  by_cases hm : h ∈ d.queue
  · simp [downloadTx.dequeueTx, hm]
  · simp [downloadTx.dequeueTx, hm, Finset.erase_eq_self.mpr hm]

/-- The state after a downloadBlock dequeue always has the id erased from
txQueue and the other fields unchanged. -/
theorem downloadBlock.dequeueTx_snd (d : downloadBlock) (h : Hash) :
    (d.dequeueTx h).2 = { d with txQueue := d.txQueue.erase h } := by
  by_cases hm : h ∈ d.txQueue
  · simp [downloadBlock.dequeueTx, hm]
  · simp [downloadBlock.dequeueTx, hm, Finset.erase_eq_self.mpr hm]

/-- Queue contents after a sequence of enqueues. -/
theorem enqueueList_queue (l : List Hash) (d : downloadTx) :
    (enqueueList d l).queue = d.queue ∪ l.toFinset := by
  induction l generalizing d with
  | nil => simp [enqueueList]
  | cons y t ih =>
      have h1 : enqueueList d (y :: t) = enqueueList (d.queueTx y) t := rfl
      rw [h1, ih]
      simp [downloadTx.queueTx, Finset.insert_union, Finset.union_insert]

/-- Queue contents after a sequence of dequeues. -/
theorem dequeueTxList_queue (l : List Hash) (d : downloadTx) :
    (dequeueTxList d l).queue = d.queue \ l.toFinset := by
  induction l generalizing d with
  | nil => simp [dequeueTxList]
  | cons y t ih =>
      have h1 : dequeueTxList d (y :: t) = dequeueTxList (d.dequeueTx y).2 t := rfl
      rw [h1, ih, downloadTx.dequeueTx_snd_queue]
      ext a
      simp only [Finset.mem_sdiff, Finset.mem_erase, List.toFinset_cons, Finset.mem_insert,
        List.mem_toFinset]
      tauto

/-- txQueue contents after a sequence of dequeues on a block tracker. -/
theorem dequeueBlockList_txQueue (l : List Hash) (d : downloadBlock) :
    (dequeueBlockList d l).txQueue = d.txQueue \ l.toFinset := by
  induction l generalizing d with
  | nil => simp [dequeueBlockList]
  | cons y t ih =>
      have h1 : dequeueBlockList d (y :: t) = dequeueBlockList (d.dequeueTx y).2 t := rfl
      rw [h1, ih, downloadBlock.dequeueTx_snd]
      ext a
      simp only [Finset.mem_sdiff, Finset.mem_erase, List.toFinset_cons, Finset.mem_insert,
        List.mem_toFinset]
      tauto

/-- txQueue contents after a sequence of enqueues on a block tracker. -/
theorem enqueueBlockList_txQueue (l : List Hash) (d : downloadBlock) :
    (enqueueBlockList d l).txQueue = d.txQueue ∪ l.toFinset := by
  induction l generalizing d with
  | nil => simp [enqueueBlockList]
  | cons y t ih =>
      have h1 : enqueueBlockList d (y :: t) = enqueueBlockList (d.enqueueTx y) t := rfl
      rw [h1, ih]
      simp [downloadBlock.enqueueTx, Finset.insert_union, Finset.union_insert]

/-! ### Claim theorems -/

/-- C1: with one pending expectation recorded by a getData at time T into an
empty pendingResponses map and no further stall-control traffic, a tick before
T + stallResponseTimeout does not disconnect and a tick after
T + stallResponseTimeout disconnects. -/
theorem claim_C1 (a T t : Nat) (h : Hash) :
    (stallStep ⟨∅, a⟩ (CtrlMsg.getData [h]) T).1.pendingResponses = {PendingKey.hashKey h} ∧
    (t < T + stallResponseTimeout →
      stallTick (stallStep ⟨∅, a⟩ (CtrlMsg.getData [h]) T).1 t = false) ∧
    (T + stallResponseTimeout < t →
      stallTick (stallStep ⟨∅, a⟩ (CtrlMsg.getData [h]) T).1 t = true) := by
  refine ⟨rfl, ?_, ?_⟩ <;> intro ht <;> simp [stallStep, stallTick] <;> omega

/-- C1 witness: an expectation added at time 100 is not timed out by a tick at
129 and is timed out by a tick at 131. -/
theorem claim_C1_witness :
    stallTick (stallStep ⟨∅, 0⟩ (CtrlMsg.getData [1]) 100).1 129 = false ∧
    stallTick (stallStep ⟨∅, 0⟩ (CtrlMsg.getData [1]) 100).1 131 = true :=
  ⟨(claim_C1 0 100 129 1).2.1 (by decide), (claim_C1 0 100 131 1).2.2 (by decide)⟩

/-- C2: a notFound message on the stall-control channel disconnects the peer
in that same iteration, for every current state (pendingResponses unchanged),
without consulting the timer. -/
theorem claim_C2 (s : StallState) (now : Nat) :
    stallStep s CtrlMsg.notFound now = ({ s with lastActive := now }, true) := rfl

/-- C3: when pendingResponses is empty a tick never disconnects, for any tick
time and any lastActive. -/
theorem claim_C3 (s : StallState) (t : Nat) (hp : s.pendingResponses = ∅) :
    stallTick s t = false := by
  simp [stallTick, hp]

/-- C3 witness: a tick at time 1000000 on an empty map does not disconnect. -/
theorem claim_C3_witness : stallTick ⟨∅, 0⟩ 1000000 = false :=
  claim_C3 ⟨∅, 0⟩ 1000000 rfl

/-- C4: every stall-control message sets lastActive to the current time; an
expectation added at T0 followed by unrelated traffic at
T0 + stallResponseTimeout / 2 is not timed out by any tick before
T0 + 1.5 * stallResponseTimeout but is timed out by any tick from that point
on. -/
theorem claim_C4 (s : StallState) (m : CtrlMsg) (now a T0 t : Nat) (h : Hash) :
    (stallStep s m now).1.lastActive = now ∧
    (t < T0 + stallResponseTimeout + stallResponseTimeout / 2 →
      stallTick (stallStep (stallStep ⟨∅, a⟩ (CtrlMsg.getData [h]) T0).1
        CtrlMsg.other (T0 + stallResponseTimeout / 2)).1 t = false) ∧
    (T0 + stallResponseTimeout + stallResponseTimeout / 2 ≤ t →
      stallTick (stallStep (stallStep ⟨∅, a⟩ (CtrlMsg.getData [h]) T0).1
        CtrlMsg.other (T0 + stallResponseTimeout / 2)).1 t = true) := by
  refine ⟨?_, ?_, ?_⟩
  · cases m <;> rfl
  · intro ht
    simp [stallStep, stallTick]
    omega
  · intro ht
    simp [stallStep, stallTick]
    omega

/-- C4 witness: expectation at 100, unrelated traffic at 115; a tick at 144
does not disconnect, a tick at 145 does. -/
theorem claim_C4_witness :
    stallTick (stallStep (stallStep ⟨∅, 0⟩ (CtrlMsg.getData [7]) 100).1
      CtrlMsg.other 115).1 144 = false ∧
    stallTick (stallStep (stallStep ⟨∅, 0⟩ (CtrlMsg.getData [7]) 100).1
      CtrlMsg.other 115).1 145 = true :=
  ⟨(claim_C4 ⟨∅, 0⟩ CtrlMsg.other 3 0 100 144 7).2.1 (by decide),
   (claim_C4 ⟨∅, 0⟩ CtrlMsg.other 3 0 100 145 7).2.2 (by decide)⟩

/-- C5: a merkle-block (resp. transaction) message removes from
pendingResponses exactly the key of the hash computed from the received
payload, leaving every other key (such as an originally requested hash)
untouched; a getData adds one key per requested inventory hash. -/
theorem claim_C5 (s : StallState) (now : Nat) (h : Hash) (invList : List Hash) :
    ((stallStep s (CtrlMsg.merkleBlock h) now).1.pendingResponses
        = s.pendingResponses.erase (PendingKey.hashKey h)) ∧
    ((stallStep s (CtrlMsg.tx h) now).1.pendingResponses
        = s.pendingResponses.erase (PendingKey.hashKey h)) ∧
    (∀ k, k ∈ (stallStep s (CtrlMsg.getData invList) now).1.pendingResponses ↔
        k ∈ s.pendingResponses ∨ ∃ x ∈ invList, k = PendingKey.hashKey x) := by
  refine ⟨rfl, rfl, fun k => ?_⟩
  exact mem_foldl_insert invList s.pendingResponses k

/-- C6: finished is true iff the expected-transaction set is empty, and after
any sequence of dequeues it is true iff every expected id has been dequeued,
regardless of order (the result depends only on the set of dequeued ids). -/
theorem claim_C6 (d : downloadBlock) :
    (d.finished = true ↔ d.txQueue = ∅) ∧
    (∀ l : List Hash, ((dequeueBlockList d l).finished = true ↔ d.txQueue ⊆ l.toFinset)) := by
  constructor
  · simp [downloadBlock.finished, Finset.card_eq_zero]
  · intro l
    simp [downloadBlock.finished, dequeueBlockList_txQueue, Finset.card_eq_zero,
      Finset.sdiff_eq_empty_iff_subset]

/-- C7: starting from a fresh tracker, N enqueues of distinct identifiers
followed by M dequeues of distinct previously-enqueued identifiers leave a
set of size N - M; dequeuing an identifier never enqueued returns false and
leaves the tracker unchanged. -/
theorem claim_C7 (xs ys : List Hash) (hxs : xs.Nodup) (hys : ys.Nodup) (hsub : ys ⊆ xs) :
    (dequeueTxList (enqueueList newDownloadTx xs) ys).queue.card = xs.length - ys.length ∧
    (∀ z, z ∉ xs →
      (enqueueList newDownloadTx xs).dequeueTx z = (false, enqueueList newDownloadTx xs)) ∧
    (dequeueBlockList (enqueueBlockList newDownloadBlock xs) ys).txQueue.card
        = xs.length - ys.length ∧
    (∀ z, z ∉ xs →
      (enqueueBlockList newDownloadBlock xs).dequeueTx z
        = (false, enqueueBlockList newDownloadBlock xs)) := by
  have hq : (enqueueList newDownloadTx xs).queue = xs.toFinset := by
    rw [enqueueList_queue]
    simp [newDownloadTx]
  have hbq : (enqueueBlockList newDownloadBlock xs).txQueue = xs.toFinset := by
    rw [enqueueBlockList_txQueue]
    simp [newDownloadBlock]
  have hsubF : ys.toFinset ⊆ xs.toFinset := by
    intro a ha
    rw [List.mem_toFinset] at ha ⊢
    exact hsub ha
  refine ⟨?_, ?_, ?_, ?_⟩
  · rw [dequeueTxList_queue, hq]
    rw [Finset.card_sdiff hsubF, List.toFinset_card_of_nodup hxs,
      List.toFinset_card_of_nodup hys]
  · intro z hz
    have hzq : z ∉ (enqueueList newDownloadTx xs).queue := by
      rw [hq, List.mem_toFinset]
      exact hz
    simp [downloadTx.dequeueTx, hzq]
  · rw [dequeueBlockList_txQueue, hbq]
    rw [Finset.card_sdiff hsubF, List.toFinset_card_of_nodup hxs,
      List.toFinset_card_of_nodup hys]
  · intro z hz
    have hzq : z ∉ (enqueueBlockList newDownloadBlock xs).txQueue := by
      rw [hbq, List.mem_toFinset]
      exact hz
    simp [downloadBlock.dequeueTx, hzq]

/-- C7 witness: 3 distinct enqueues and 2 dequeues of enqueued ids leave
size 1, on both trackers. -/
theorem claim_C7_witness :
    ([1, 2, 3] : List Hash).Nodup ∧ ([3, 1] : List Hash).Nodup ∧
    ([3, 1] : List Hash) ⊆ [1, 2, 3] ∧
    (dequeueTxList (enqueueList newDownloadTx [1, 2, 3]) [3, 1]).queue.card = 1 ∧
    (dequeueBlockList (enqueueBlockList newDownloadBlock [1, 2, 3]) [3, 1]).txQueue.card = 1 :=
  ⟨by decide, by decide, by decide,
    (claim_C7 [1, 2, 3] [3, 1] (by decide) (by decide) (by decide)).1,
    (claim_C7 [1, 2, 3] [3, 1] (by decide) (by decide) (by decide)).2.2.1⟩

/-- C8: on either tracker, dequeue of a present id returns true and removes
exactly that id, dequeue of an absent id returns false and leaves the tracker
unchanged; neither is an error. -/
theorem claim_C8 (dt : downloadTx) (db : downloadBlock) (x y : Hash)
    (hx : x ∈ dt.queue) (hy : y ∉ dt.queue)
    (hbx : x ∈ db.txQueue) (hby : y ∉ db.txQueue) :
    dt.dequeueTx x = (true, ⟨dt.queue.erase x⟩) ∧
    dt.dequeueTx y = (false, dt) ∧
    db.dequeueTx x = (true, { db with txQueue := db.txQueue.erase x }) ∧
    db.dequeueTx y = (false, db) := by
  refine ⟨?_, ?_, ?_, ?_⟩ <;>
    simp [downloadTx.dequeueTx, downloadBlock.dequeueTx, hx, hy, hbx, hby]

/-- C8 witness: trackers holding exactly id 5; dequeue of 5 succeeds, dequeue
of 7 reports not found and changes nothing. -/
theorem claim_C8_witness :
    (5 : Hash) ∈ ({5} : Finset Hash) ∧ (7 : Hash) ∉ ({5} : Finset Hash) ∧
    downloadTx.dequeueTx ⟨{5}⟩ 5 = (true, ⟨({5} : Finset Hash).erase 5⟩) ∧
    downloadTx.dequeueTx ⟨{5}⟩ 7 = (false, ⟨{5}⟩) ∧
    downloadBlock.dequeueTx ⟨none, {5}, []⟩ 5 = (true, ⟨none, ({5} : Finset Hash).erase 5, []⟩) ∧
    downloadBlock.dequeueTx ⟨none, {5}, []⟩ 7 = (false, ⟨none, {5}, []⟩) := by
  have h := claim_C8 ⟨{5}⟩ ⟨none, {5}, []⟩ 5 7 (by decide) (by decide) (by decide) (by decide)
  exact ⟨by decide, by decide, h.1, h.2.1, h.2.2.1, h.2.2.2⟩

/-- C9: when receivedTxs is nonzero GetFalsePositiveRate is the exact quotient
fPositives / receivedTxs; when receivedTxs is zero the result is not a
meaningful number (none in the model) and the caller must guard. -/
theorem claim_C9 (p q : SPVPeer) (hp : p.receivedTxs ≠ 0) (hq : q.receivedTxs = 0) :
    p.GetFalsePositiveRate = some ((p.fPositives : ℚ) / (p.receivedTxs : ℚ)) ∧
    q.GetFalsePositiveRate = none := by
  simp [SPVPeer.GetFalsePositiveRate, hp, hq]

/-- C9 witness: 10 received transactions, 3 false positives, rate 3/10 = 0.3;
with 0 received the result is guarded. -/
theorem claim_C9_witness :
    (10 : Nat) ≠ 0 ∧
    SPVPeer.GetFalsePositiveRate ⟨newDownloadBlock, newDownloadTx, 10, 3⟩ = some ((3 : ℚ) / 10) ∧
    SPVPeer.GetFalsePositiveRate ⟨newDownloadBlock, newDownloadTx, 0, 5⟩ = none := by
  have h := claim_C9 ⟨newDownloadBlock, newDownloadTx, 10, 3⟩
    ⟨newDownloadBlock, newDownloadTx, 0, 5⟩ (by decide) rfl
  refine ⟨by decide, ?_, h.2⟩
  have h1 := h.1
  norm_num at h1 ⊢
  exact h1

/-- C10: a freshly constructed Download-Block Tracker, and in particular the
one installed by ResetDownloading, reports finished = true for every peer
state. -/
theorem claim_C10 (p : SPVPeer) :
    newDownloadBlock.finished = true ∧ p.ResetDownloading.downloading.finished = true :=
  ⟨rfl, rfl⟩
